import Mathlib

/-!
Verification of the ArbitrageEngine repository: a shallow embedding of the
pool pricing engine (src/amm/uniswap_v2.py, src/amm/curve.py, src/amm/base_amm.py)
and the arbitrage detection engine (src/arbitrage/detector.py).

Modelling conventions:
* Python floats are modelled as exact rationals (ℚ). Numeric literals such as
  0.003 or 0.1 are the exact rationals 3/1000 and 1/10.
* Python exceptions are modelled with Except PyErr: a division raising
  ZeroDivisionError is the checked division qdiv, a missing attribute
  (for example CurveAMM has no copy method and no reserve0 attribute) is
  attributeError, an out-of-range list index is indexError.
* In-place mutation of a pool is modelled by returning the updated pool value;
  methods that do not assign to self are plain functions of the pool value.
* scipy.optimize.minimize_scalar (bounded) is modelled by an Oracle argument:
  the oracle picks the evaluation point result.x, and result.fun is the
  objective evaluated there; errors raised by the objective propagate.
* int(time.time()) is modelled by an explicit timestamp argument.
-/

inductive PyErr where
  | zeroDivision
  | attributeError
  | typeError
  | indexError
deriving DecidableEq

/-- Checked division: Python raises ZeroDivisionError on a zero denominator. -/
def qdiv (a b : ℚ) : Except PyErr ℚ :=
  if b = 0 then .error .zeroDivision else .ok (a / b)

/-- State of a UniswapV2AMM object (src/amm/uniswap_v2.py): reserves, fee,
display name, and the k attribute set at construction time. -/
structure UniswapV2AMM where
  reserve0 : ℚ
  reserve1 : ℚ
  fee : ℚ
  name : String
  k : ℚ
deriving DecidableEq

/-- UniswapV2AMM.__init__: stores the reserves and sets k to their product. -/
def UniswapV2AMM.init (token0_reserve token1_reserve : ℚ) (fee : ℚ) (name : String) :
    UniswapV2AMM :=
  ⟨token0_reserve, token1_reserve, fee, name, token0_reserve * token1_reserve⟩

/-- UniswapV2AMM.get_amount_out: returns 0 for amount_in <= 0, otherwise
amount_in*(1-fee)*reserve_out / (reserve_in + amount_in*(1-fee)). -/
def UniswapV2AMM.get_amount_out (p : UniswapV2AMM) (amount_in reserve_in reserve_out : ℚ) :
    Except PyErr ℚ :=
  if amount_in ≤ 0 then .ok 0
  else
    qdiv (amount_in * (1 - p.fee) * reserve_out) (reserve_in + amount_in * (1 - p.fee))

/-- UniswapV2AMM.get_spot_price: reserve1 / reserve0. -/
def UniswapV2AMM.get_spot_price (p : UniswapV2AMM) : Except PyErr ℚ :=
  qdiv p.reserve1 p.reserve0

/-- UniswapV2AMM.swap: the x_to_y branch for direction == "x_to_y", the else
branch otherwise; updates the reserves in place (modelled by returning the
updated pool) and returns the output amount. Note the k attribute is not
updated by swap, exactly as in the source. -/
def UniswapV2AMM.swap (p : UniswapV2AMM) (amount_in : ℚ) (direction : String) :
    Except PyErr (ℚ × UniswapV2AMM) :=
  if direction = "x_to_y" then do
    let amount_out ← p.get_amount_out amount_in p.reserve0 p.reserve1
    .ok (amount_out,
      { p with reserve0 := p.reserve0 + amount_in, reserve1 := p.reserve1 - amount_out })
  else do
    let amount_out ← p.get_amount_out amount_in p.reserve1 p.reserve0
    .ok (amount_out,
      { p with reserve1 := p.reserve1 + amount_in, reserve0 := p.reserve0 - amount_out })

/-- UniswapV2AMM.copy: constructs a fresh pool from the current reserves, fee
and name (so k is recomputed by the constructor). -/
def UniswapV2AMM.copy (p : UniswapV2AMM) : UniswapV2AMM :=
  UniswapV2AMM.init p.reserve0 p.reserve1 p.fee p.name

/-- State of a CurveAMM object (src/amm/curve.py): reserve list, amplification
coefficient A, fee, name, and the token count n stored at construction. -/
structure CurveAMM where
  reserves : List ℚ
  A : ℚ
  fee : ℚ
  name : String
  n : ℕ
deriving DecidableEq

/-- CurveAMM.__init__. -/
def CurveAMM.init (reserves : List ℚ) (amplification_coef fee : ℚ) (name : String) :
    CurveAMM :=
  ⟨reserves, amplification_coef, fee, name, reserves.length⟩

/-- Ann = A * n**n, computed inside get_D and get_y. -/
def CurveAMM.Ann (p : CurveAMM) : ℚ := p.A * (p.n : ℚ) ^ p.n

/-- The D_P accumulation inside get_D: D_P = D, then
D_P = D_P * D / (n * reserve) for each reserve. -/
def CurveAMM.D_P_loop (p : CurveAMM) (D : ℚ) : Except PyErr ℚ :=
  p.reserves.foldlM (fun D_P reserve => qdiv (D_P * D) ((p.n : ℚ) * reserve)) D

/-- One pass of the get_D Newton loop with explicit fuel (the source runs
range(255)). The Bool records whether the break was taken, i.e. whether the
absolute change between successive iterates fell below 1; when the fuel runs
out the last iterate is returned with the flag false. -/
def CurveAMM.get_D_go (p : CurveAMM) (S : ℚ) : ℕ → ℚ → Except PyErr (ℚ × Bool)
  | 0, D => .ok (D, false)
  | fuel + 1, D => do
      let D_P ← p.D_P_loop D
      let Dnew ← qdiv ((p.Ann * S + D_P * (p.n : ℚ)) * D)
        ((p.Ann - 1) * D + ((p.n : ℚ) + 1) * D_P)
      if |Dnew - D| < 1 then .ok (Dnew, true) else p.get_D_go S fuel Dnew

/-- CurveAMM.get_D instrumented with the convergence flag: seeds D with the
sum S of the reserves and runs at most 255 Newton iterations. -/
def CurveAMM.get_D_run (p : CurveAMM) : Except PyErr (ℚ × Bool) :=
  p.get_D_go p.reserves.sum 255 p.reserves.sum

/-- CurveAMM.get_D: the value the source returns (the last iterate, whether or
not the tolerance was met). -/
def CurveAMM.get_D (p : CurveAMM) : Except PyErr ℚ :=
  p.get_D_run.map Prod.fst

/-- Whether the get_D Newton loop met its tolerance within the 255-iteration
cap (true exactly when the break in the source loop was taken). -/
def CurveAMM.get_D_converged (p : CurveAMM) : Except PyErr Bool :=
  p.get_D_run.map Prod.snd

/-- The get_y Newton loop: y = (y*y + c) / (2*y + b - D), fuel-capped at 255,
returning the last iterate when the fuel runs out. -/
def CurveAMM.get_y_go (c b D : ℚ) : ℕ → ℚ → Except PyErr ℚ
  | 0, y => .ok y
  | fuel + 1, y => do
      let ynew ← qdiv (y * y + c) (2 * y + b - D)
      if |ynew - y| < 1 then .ok ynew else CurveAMM.get_y_go c b D fuel ynew

/-- CurveAMM.get_y: builds S_ and c over the indices k ≠ j (using x at k = i),
then b, then runs the y Newton loop seeded at D. -/
def CurveAMM.get_y (p : CurveAMM) (i j : ℕ) (x : ℚ) : Except PyErr ℚ := do
  let D ← p.get_D
  let sc ← (List.range p.n).foldlM (fun (acc : ℚ × ℚ) k => do
      if k = i then do
        let c ← qdiv (acc.2 * D) ((p.n : ℚ) * x)
        .ok (acc.1 + x, c)
      else if k = j then .ok acc
      else
        match p.reserves[k]? with
        | some r => do
            let c ← qdiv (acc.2 * D) ((p.n : ℚ) * r)
            .ok (acc.1 + r, c)
        | none => .error .indexError) ((0 : ℚ), D)
  let c ← qdiv (sc.2 * D) ((p.n : ℚ) * p.Ann)
  let bq ← qdiv D p.Ann
  CurveAMM.get_y_go c (sc.1 + bq) D 255 D

/-- CurveAMM.get_amount_out: x = reserves[i] + amount_in, solve for y, then
dy = reserves[j] - y and the fee is applied to dy. -/
def CurveAMM.get_amount_out (p : CurveAMM) (amount_in : ℚ) (i j : ℕ) : Except PyErr ℚ := do
  let ri ← match p.reserves[i]? with
    | some r => .ok r
    | none => .error .indexError
  let y ← p.get_y i j (ri + amount_in)
  let rj ← match p.reserves[j]? with
    | some r => .ok r
    | none => .error .indexError
  .ok ((rj - y) * (1 - p.fee))

/-- CurveAMM.get_spot_price: reserves[1] / reserves[0]. -/
def CurveAMM.get_spot_price (p : CurveAMM) : Except PyErr ℚ := do
  let r1 ← match p.reserves[1]? with
    | some r => .ok r
    | none => .error .indexError
  let r0 ← match p.reserves[0]? with
    | some r => .ok r
    | none => .error .indexError
  qdiv r1 r0

/-- CurveAMM.swap: dispatches on the direction string like the source and
updates the two reserves in place. -/
def CurveAMM.swap (p : CurveAMM) (amount_in : ℚ) (direction : String) :
    Except PyErr (ℚ × CurveAMM) :=
  if direction = "x_to_y" then do
    let amount_out ← p.get_amount_out amount_in 0 1
    let r0 ← match p.reserves[0]? with
      | some r => .ok r
      | none => .error .indexError
    let r1 ← match p.reserves[1]? with
      | some r => .ok r
      | none => .error .indexError
    .ok (amount_out,
      { p with reserves := (p.reserves.set 0 (r0 + amount_in)).set 1 (r1 - amount_out) })
  else do
    let amount_out ← p.get_amount_out amount_in 1 0
    let r1 ← match p.reserves[1]? with
      | some r => .ok r
      | none => .error .indexError
    let r0 ← match p.reserves[0]? with
      | some r => .ok r
      | none => .error .indexError
    .ok (amount_out,
      { p with reserves := (p.reserves.set 1 (r1 + amount_in)).set 0 (r0 - amount_out) })

/-- The polymorphic pool values held by the detector: either a UniswapV2AMM or
a CurveAMM object. -/
inductive AMM where
  | uni : UniswapV2AMM → AMM
  | curve : CurveAMM → AMM
deriving DecidableEq

def AMM.name : AMM → String
  | .uni p => p.name
  | .curve p => p.name

/-- BaseAMM.has_pair (src/amm/base_amm.py): returns True unconditionally. -/
def AMM.has_pair (_ : AMM) (_ _ : String) : Bool := true

def AMM.get_spot_price : AMM → Except PyErr ℚ
  | .uni p => p.get_spot_price
  | .curve p => p.get_spot_price

/-- amm.copy(): only UniswapV2AMM defines copy; calling it on a CurveAMM
raises AttributeError. -/
def AMM.copy : AMM → Except PyErr AMM
  | .uni p => .ok (.uni p.copy)
  | .curve _ => .error .attributeError

/-- amm.reserve0: a CurveAMM object has no reserve0 attribute. -/
def AMM.reserve0 : AMM → Except PyErr ℚ
  | .uni p => .ok p.reserve0
  | .curve _ => .error .attributeError

/-- amm.reserve1: a CurveAMM object has no reserve1 attribute. -/
def AMM.reserve1 : AMM → Except PyErr ℚ
  | .uni p => .ok p.reserve1
  | .curve _ => .error .attributeError

/-- amm.get_amount_out(amount_in, r_in, r_out) with three positional numeric
arguments, as the detector calls it. For a CurveAMM the reserve values would
be passed where integer indices are expected, raising a TypeError; this call
is unreachable on Curve pools because copy() raises AttributeError first. -/
def AMM.get_amount_out (a : AMM) (amount_in r_in r_out : ℚ) : Except PyErr ℚ :=
  match a with
  | .uni p => p.get_amount_out amount_in r_in r_out
  | .curve _ => .error .typeError

def AMM.swap (a : AMM) (amount_in : ℚ) (direction : String) : Except PyErr (ℚ × AMM) :=
  match a with
  | .uni p => (p.swap amount_in direction).map fun r => (r.1, .uni r.2)
  | .curve p => (p.swap amount_in direction).map fun r => (r.1, .curve r.2)

/-- An opportunity record appended by find_two_pool_arbitrage. -/
structure Opportunity where
  buy_pool : String
  sell_pool : String
  token_in : String
  token_out : String
  amount : ℚ
  expected_profit : ℚ
  timestamp : ℤ
deriving DecidableEq

/-- A path record appended by find_triangular_arbitrage. -/
structure TriangularPath where
  path : List String
  start_amount : ℚ
  end_amount : ℚ
  profit : ℚ
  profit_percentage : ℚ
  amm : String
deriving DecidableEq

/-- ArbitrageDetector state: the pool list and min_profit_threshold. -/
structure ArbitrageDetector where
  amms : List AMM
  min_profit_threshold : ℚ
deriving DecidableEq

/-- Model of scipy.optimize.minimize_scalar with method bounded over
(0.01, 1000): the oracle chooses the point result.x at which the returned
minimum is reported; result.fun is the objective evaluated there. -/
def Oracle : Type := (ℚ → Except PyErr ℚ) → ℚ

/-- The negative_profit closure inside ArbitrageDetector._optimize_trade_size:
simulates the buy on a copy of the buy pool and the sell on a copy of the sell
pool and returns -(amount_out_sell - amount). -/
def ArbitrageDetector.negative_profit (buy_pool sell_pool : AMM) (amount : ℚ) :
    Except PyErr ℚ := do
  let buy_pool_copy ← buy_pool.copy
  let br0 ← buy_pool_copy.reserve0
  let br1 ← buy_pool_copy.reserve1
  let amount_out_buy ← buy_pool_copy.get_amount_out amount br0 br1
  let sell_pool_copy ← sell_pool.copy
  let sr1 ← sell_pool_copy.reserve1
  let sr0 ← sell_pool_copy.reserve0
  let amount_out_sell ← sell_pool_copy.get_amount_out amount_out_buy sr1 sr0
  .ok (-(amount_out_sell - amount))

/-- ArbitrageDetector._optimize_trade_size: runs the bounded scalar
minimization of negative_profit and returns result.x if -result.fun > 0,
else 0. -/
def ArbitrageDetector.optimize_trade_size (oracle : Oracle) (buy_pool sell_pool : AMM)
    (_token0 _token1 : String) : Except PyErr ℚ := do
  let f := fun amount => ArbitrageDetector.negative_profit buy_pool sell_pool amount
  let x := oracle f
  let fx ← f x
  .ok (if 0 < -fx then x else 0)

/-- ArbitrageDetector._calculate_net_profit: simulates both swaps on copies
and subtracts the fixed gas cost 0.001. -/
def ArbitrageDetector.calculate_net_profit (buy_pool sell_pool : AMM)
    (_token0 _token1 : String) (amount : ℚ) : Except PyErr ℚ := do
  let buy_pool_copy ← buy_pool.copy
  let sell_pool_copy ← sell_pool.copy
  let (amount_out_buy, _) ← buy_pool_copy.swap amount "x_to_y"
  let (amount_out_sell, _) ← sell_pool_copy.swap amount_out_buy "y_to_x"
  let gross_profit := amount_out_sell - amount
  let gas_cost : ℚ := 1 / 1000
  .ok (gross_profit - gas_cost)

/-- The (pools[i], pools[j]) pairs visited by the nested loops
for i in range(len(pools)), for j in range(i+1, len(pools)), in order. -/
def upperPairs {α : Type} : List α → List (α × α)
  | [] => []
  | x :: xs => (xs.map fun y => (x, y)) ++ upperPairs xs

/-- Sequential monadic map over Except, in source iteration order: the first
error aborts the whole computation, exactly like an uncaught exception
escaping the loop. -/
def exceptMap {α β : Type} (f : α → Except PyErr β) : List α → Except PyErr (List β)
  | [] => .ok []
  | x :: xs => do
    let y ← f x
    let ys ← exceptMap f xs
    .ok (y :: ys)

/-- The body of the pair loop in find_two_pool_arbitrage: compares spot
prices, applies the 0.1% divergence screen, assigns buy/sell by cheaper
price, optimizes the trade size, and emits at most one opportunity. -/
def ArbitrageDetector.evaluate_pair (oracle : Oracle) (min_profit_threshold : ℚ)
    (token0 token1 : String) (ts : ℤ) (pq : AMM × AMM) :
    Except PyErr (List Opportunity) := do
  let pool_a := pq.1
  let pool_b := pq.2
  let price_a ← pool_a.get_spot_price
  let price_b ← pool_b.get_spot_price
  let ratio ← qdiv |price_a - price_b| (min price_a price_b)
  if ratio < 1 / 1000 then .ok []
  else
    let (buy_pool, sell_pool) :=
      if price_a < price_b then (pool_a, pool_b) else (pool_b, pool_a)
    let optimal_amount ←
      ArbitrageDetector.optimize_trade_size oracle buy_pool sell_pool token0 token1
    if 0 < optimal_amount then do
      let profit ←
        ArbitrageDetector.calculate_net_profit buy_pool sell_pool token0 token1 optimal_amount
      if min_profit_threshold < profit then
        .ok [⟨buy_pool.name, sell_pool.name, token0, token1, optimal_amount, profit, ts⟩]
      else
        .ok []
    else
      .ok []

/-- ArbitrageDetector.find_two_pool_arbitrage: filters the pools by has_pair,
then scans every unordered pool pair with evaluate_pair, concatenating the
per-pair results in iteration order. -/
def ArbitrageDetector.find_two_pool_arbitrage (d : ArbitrageDetector) (oracle : Oracle)
    (ts : ℤ) (token_pair : String × String) : Except PyErr (List Opportunity) := do
  let token0 := token_pair.1
  let token1 := token_pair.2
  let pools := d.amms.filter fun amm => amm.has_pair token0 token1
  let rss ← exceptMap
    (ArbitrageDetector.evaluate_pair oracle d.min_profit_threshold token0 token1 ts)
    (upperPairs pools)
  .ok rss.flatten

/-- One trial amount of the triangular loop body: clone the pool, run the
three chained swaps a_to_b, b_to_c, c_to_a, compute profit and
profit_percentage, and append a path record when the percentage exceeds
min_profit_threshold. -/
def ArbitrageDetector.triangular_trial (amm : AMM) (min_profit_threshold : ℚ)
    (token_a token_b token_c : String) (start_amount : ℚ) :
    Except PyErr (Option TriangularPath) := do
  let amm_copy ← amm.copy
  let (amount_b, amm_copy) ← amm_copy.swap start_amount "a_to_b"
  let (amount_c, amm_copy) ← amm_copy.swap amount_b "b_to_c"
  let (final_amount_a, _) ← amm_copy.swap amount_c "c_to_a"
  let profit := final_amount_a - start_amount
  let pr ← qdiv profit start_amount
  let profit_percentage := pr * 100
  if min_profit_threshold < profit_percentage then
    .ok (some ⟨[token_a, token_b, token_c, token_a], start_amount, final_amount_a,
      profit, profit_percentage, amm.name⟩)
  else
    .ok none

/-- The fixed trial starting amounts of the triangular scan. -/
def triangularTrials : List ℚ := [1 / 10, 1, 10, 100]

/-- ArbitrageDetector.find_triangular_arbitrage: for each pool, skip it unless
it supports all three legs (has_pair), then test the four fixed starting
amounts, collecting the emitted path records in order. -/
def ArbitrageDetector.find_triangular_arbitrage (d : ArbitrageDetector)
    (tokens : String × String × String) : Except PyErr (List TriangularPath) := do
  let token_a := tokens.1
  let token_b := tokens.2.1
  let token_c := tokens.2.2
  let rss ← exceptMap (fun amm =>
    if !(amm.has_pair token_a token_b && amm.has_pair token_b token_c &&
         amm.has_pair token_c token_a) then
      .ok []
    else do
      let opts ← exceptMap
        (ArbitrageDetector.triangular_trial amm d.min_profit_threshold
          token_a token_b token_c)
        triangularTrials
      .ok (opts.filterMap id)) d.amms
  .ok rss.flatten

/-! Helper lemmas for evaluating Except computations and the fuel loops. -/

@[simp]
lemma ok_bind {α β : Type} (a : α) (f : α → Except PyErr β) :
    (Except.ok a >>= f) = f a := rfl

@[simp]
lemma error_bind {α β : Type} (e : PyErr) (f : α → Except PyErr β) :
    ((Except.error e : Except PyErr α) >>= f) = (Except.error e : Except PyErr β) := rfl

@[simp]
lemma map_error_eq {α β : Type} (f : α → β) (e : PyErr) :
    Except.map f (Except.error e : Except PyErr α) = .error e := rfl

@[simp]
lemma map_ok_eq {α β : Type} (f : α → β) (a : α) :
    Except.map f (Except.ok a : Except PyErr α) = .ok (f a) := rfl

lemma get_D_go_succ (p : CurveAMM) (S : ℚ) (fuel : ℕ) (D : ℚ) :
    p.get_D_go S (fuel + 1) D = (do
      let D_P ← p.D_P_loop D
      let Dnew ← qdiv ((p.Ann * S + D_P * (p.n : ℚ)) * D)
        ((p.Ann - 1) * D + ((p.n : ℚ) + 1) * D_P)
      if |Dnew - D| < 1 then .ok (Dnew, true) else p.get_D_go S fuel Dnew) := rfl

/-! Concrete pools used by the claims. -/

/-- The pool of the spec's worked example: UniswapV2AMM(100000, 200000, fee=0.003). -/
def pC3 : UniswapV2AMM := UniswapV2AMM.init 100000 200000 (3 / 1000) "Uniswap V2"

/-- A Curve pool whose first reserve is zero. -/
def curveZero : CurveAMM := CurveAMM.init [0, 100] 100 (4 / 10000) "Curve"

/-- A balanced Curve pool, on which get_D converges in one iteration. -/
def curveBalanced : CurveAMM := CurveAMM.init [100, 100] 100 (4 / 10000) "Curve"

lemma curveZero_D_P : curveZero.D_P_loop 100 = .error .zeroDivision := by
  norm_num [CurveAMM.D_P_loop, qdiv, curveZero, CurveAMM.init, List.foldlM]

lemma curveZero_get_D : curveZero.get_D = .error .zeroDivision := by
  have h : curveZero.reserves.sum = 100 := by norm_num [curveZero, CurveAMM.init]
  rw [CurveAMM.get_D, CurveAMM.get_D_run, h, show (255 : ℕ) = 254 + 1 from by norm_num,
    get_D_go_succ, curveZero_D_P]
  rfl

lemma curveZero_amount_out : curveZero.get_amount_out 1 0 1 = .error .zeroDivision := by
  have h0 : curveZero.reserves[0]? = some 0 := by norm_num [curveZero, CurveAMM.init]
  simp [CurveAMM.get_amount_out, h0, CurveAMM.get_y, curveZero_get_D]

/-- C3 counterexample: on the spec's own example pool, get_amount_out with
amount_in = 1000, reserve_in = 100000, reserve_out = 200000 returns exactly
199400000/100997 ≈ 1974.32, which is not within 0.01 of 1.974. -/
theorem C3_counterexample :
    pC3.get_amount_out 1000 100000 200000 = .ok (199400000 / 100997) ∧
    ¬ |(199400000 : ℚ) / 100997 - 1974 / 1000| < 1 / 100 := by
  constructor
  · norm_num [UniswapV2AMM.get_amount_out, qdiv, pC3, UniswapV2AMM.init]
  · rw [abs_sub_lt_iff]
    norm_num

/-- C3 amended: get_amount_out(1000, 100000, 200000) on the (100000, 200000)
fee-0.003 pool returns exactly 199400000/100997, which is within 0.01 of
1974.32 (the spec's 1.974 drops a factor of 1000), and get_spot_price is
exactly 2. -/
theorem C3_amended :
    pC3.get_amount_out 1000 100000 200000 = .ok (199400000 / 100997) ∧
    |(199400000 : ℚ) / 100997 - 197432 / 100| < 1 / 100 ∧
    pC3.get_spot_price = .ok 2 := by
  refine ⟨?_, ?_, ?_⟩
  · norm_num [UniswapV2AMM.get_amount_out, qdiv, pC3, UniswapV2AMM.init]
  · rw [abs_sub_lt_iff]; norm_num
  · norm_num [UniswapV2AMM.get_spot_price, qdiv, pC3, UniswapV2AMM.init]

/-- C8 counterexample: with reserve_in = 0 (an invalid pool state) and
amount_in = 1, the Constant-Product get_amount_out does not fail at all: it
returns the full reserve_out value 5. -/
theorem C8_counterexample : pC3.get_amount_out 1 0 5 = .ok 5 := by
  norm_num [UniswapV2AMM.get_amount_out, qdiv, pC3, UniswapV2AMM.init]

/-- C8 amended: the Constant-Product get_amount_out explicitly returns 0 for
every amount_in <= 0 (and, being pure, mutates nothing); neither variant
validates reserves: Constant-Product returns an ordinary quote even with a
zero reserve_in, and Curve raises ZeroDivisionError, not an
InvalidPoolStateError, when a reserve is zero. -/
theorem C8_amended (p : UniswapV2AMM) (a r_in r_out : ℚ) (ha : a ≤ 0) :
    p.get_amount_out a r_in r_out = .ok 0 ∧
    pC3.get_amount_out 1 0 5 = .ok 5 ∧
    curveZero.get_amount_out 1 0 1 = .error .zeroDivision := by
  refine ⟨?_, ?_, curveZero_amount_out⟩
  · simp [UniswapV2AMM.get_amount_out, ha]
  · norm_num [UniswapV2AMM.get_amount_out, qdiv, pC3, UniswapV2AMM.init]

/-- C8 witness: the amended statement applied at amount_in = -3. -/
theorem C8_witness :
    pC3.get_amount_out (-3) 7 9 = .ok 0 ∧
    pC3.get_amount_out 1 0 5 = .ok 5 ∧
    curveZero.get_amount_out 1 0 1 = .error .zeroDivision :=
  C8_amended pC3 (-3) 7 9 (by norm_num)

/-- C10: has_pair returns true for every pool and token pair, so the
filtering step of find_two_pool_arbitrage keeps every pool and the three-leg
support check of find_triangular_arbitrage never skips a pool. -/
theorem C10_has_pair_never_filters :
    (∀ (a : AMM) (t0 t1 : String), a.has_pair t0 t1 = true) ∧
    (∀ (amms : List AMM) (t0 t1 : String),
      (amms.filter fun amm => amm.has_pair t0 t1) = amms) ∧
    (∀ (a : AMM) (ta tb tc : String),
      (a.has_pair ta tb && a.has_pair tb tc && a.has_pair tc ta) = true) := by
  refine ⟨fun _ _ _ => rfl, fun amms t0 t1 => ?_, fun _ _ _ _ => rfl⟩
  exact List.filter_eq_self.mpr fun _ _ => rfl
lemma get_amount_out_pos (p : UniswapV2AMM) (a r_in r_out : ℚ) (ha : 0 < a)
    (hd : r_in + a * (1 - p.fee) ≠ 0) :
    p.get_amount_out a r_in r_out = .ok (a * (1 - p.fee) * r_out / (r_in + a * (1 - p.fee))) := by
  simp [UniswapV2AMM.get_amount_out, not_le.mpr ha, qdiv, hd]

/-- C5: for every constant-product pool with strictly positive reserves and
fee in (0,1), and every strictly positive amount_in, swap succeeds in either
direction and the product of the two reserves after the trade is at least the
pre-trade product reserve0 * reserve1. -/
theorem C5_swap_product_nondecreasing (p : UniswapV2AMM) (dir : String) (a : ℚ)
    (hr0 : 0 < p.reserve0) (hr1 : 0 < p.reserve1)
    (hf0 : 0 < p.fee) (hf1 : p.fee < 1) (ha : 0 < a) :
    ∃ out p', p.swap a dir = .ok (out, p') ∧
      p.reserve0 * p.reserve1 ≤ p'.reserve0 * p'.reserve1 := by
  have hphi : 0 < 1 - p.fee := by linarith
  by_cases hdir : dir = "x_to_y"
  · have hd : 0 < p.reserve0 + a * (1 - p.fee) := by positivity
    refine ⟨a * (1 - p.fee) * p.reserve1 / (p.reserve0 + a * (1 - p.fee)),
      { p with reserve0 := p.reserve0 + a,
               reserve1 := p.reserve1 -
                 a * (1 - p.fee) * p.reserve1 / (p.reserve0 + a * (1 - p.fee)) }, ?_, ?_⟩
    · rw [UniswapV2AMM.swap, if_pos hdir, get_amount_out_pos p a _ _ ha (ne_of_gt hd)]
      rfl
    · show p.reserve0 * p.reserve1 ≤
        (p.reserve0 + a) *
          (p.reserve1 - a * (1 - p.fee) * p.reserve1 / (p.reserve0 + a * (1 - p.fee)))
      have key : p.reserve1 - a * (1 - p.fee) * p.reserve1 / (p.reserve0 + a * (1 - p.fee)) =
          p.reserve1 * p.reserve0 / (p.reserve0 + a * (1 - p.fee)) := by
        field_simp
        ring
      rw [key]
      have hq0 : 0 < p.reserve1 * p.reserve0 / (p.reserve0 + a * (1 - p.fee)) :=
        div_pos (mul_pos hr1 hr0) hd
      have hq : p.reserve1 * p.reserve0 / (p.reserve0 + a * (1 - p.fee)) *
          (p.reserve0 + a * (1 - p.fee)) = p.reserve1 * p.reserve0 :=
        div_mul_cancel₀ _ (ne_of_gt hd)
      nlinarith [hq, mul_pos (mul_pos ha hq0) hf0]
  · have hd : 0 < p.reserve1 + a * (1 - p.fee) := by positivity
    refine ⟨a * (1 - p.fee) * p.reserve0 / (p.reserve1 + a * (1 - p.fee)),
      { p with reserve1 := p.reserve1 + a,
               reserve0 := p.reserve0 -
                 a * (1 - p.fee) * p.reserve0 / (p.reserve1 + a * (1 - p.fee)) }, ?_, ?_⟩
    · rw [UniswapV2AMM.swap, if_neg hdir, get_amount_out_pos p a _ _ ha (ne_of_gt hd)]
      rfl
    · show p.reserve0 * p.reserve1 ≤
        (p.reserve0 - a * (1 - p.fee) * p.reserve0 / (p.reserve1 + a * (1 - p.fee))) *
          (p.reserve1 + a)
      have key : p.reserve0 - a * (1 - p.fee) * p.reserve0 / (p.reserve1 + a * (1 - p.fee)) =
          p.reserve0 * p.reserve1 / (p.reserve1 + a * (1 - p.fee)) := by
        field_simp
        ring
      rw [key]
      have hq0 : 0 < p.reserve0 * p.reserve1 / (p.reserve1 + a * (1 - p.fee)) :=
        div_pos (mul_pos hr0 hr1) hd
      have hq : p.reserve0 * p.reserve1 / (p.reserve1 + a * (1 - p.fee)) *
          (p.reserve1 + a * (1 - p.fee)) = p.reserve0 * p.reserve1 :=
        div_mul_cancel₀ _ (ne_of_gt hd)
      nlinarith [hq, mul_pos (mul_pos ha hq0) hf0]

/-- C5 witness: the invariant instantiated on the (100000, 200000) pool with
amount_in = 1000 in the x_to_y direction. -/
theorem C5_witness :
    ∃ out p', pC3.swap 1000 "x_to_y" = .ok (out, p') ∧
      pC3.reserve0 * pC3.reserve1 ≤ p'.reserve0 * p'.reserve1 :=
  C5_swap_product_nondecreasing pC3 "x_to_y" 1000
    (by norm_num [pC3, UniswapV2AMM.init]) (by norm_num [pC3, UniswapV2AMM.init])
    (by norm_num [pC3, UniswapV2AMM.init]) (by norm_num [pC3, UniswapV2AMM.init])
    (by norm_num)
/-- Pool for the C6 witness: fee 0, reserves (4, 8). -/
def pC6 : UniswapV2AMM := UniswapV2AMM.init 4 8 0 "W"

/-- C6: for every constant-product pool with positive reserves and fee in
[0,1), get_amount_out is strictly monotonically increasing in amount_in over
amount_in > 0 (successful quotes v1 < v2 whenever 0 < a1 < a2), and every
returned value is strictly less than reserve_out, for every amount_in
(the amount_in <= 0 branch returns 0 < reserve_out). -/
theorem C6_monotone_and_bounded (p : UniswapV2AMM) (r_in r_out a1 a2 a3 v1 v2 v3 : ℚ)
    (hin : 0 < r_in) (hout : 0 < r_out) (hf0 : 0 ≤ p.fee) (hf1 : p.fee < 1)
    (h1 : 0 < a1) (h12 : a1 < a2)
    (e1 : p.get_amount_out a1 r_in r_out = .ok v1)
    (e2 : p.get_amount_out a2 r_in r_out = .ok v2)
    (e3 : p.get_amount_out a3 r_in r_out = .ok v3) :
    v1 < v2 ∧ v3 < r_out := by
  have hphi : 0 < 1 - p.fee := by linarith
  have hd1 : 0 < r_in + a1 * (1 - p.fee) := by positivity
  have h2 : 0 < a2 := h1.trans h12
  have hd2 : 0 < r_in + a2 * (1 - p.fee) := by positivity
  rw [get_amount_out_pos p a1 _ _ h1 (ne_of_gt hd1), Except.ok.injEq] at e1
  rw [get_amount_out_pos p a2 _ _ h2 (ne_of_gt hd2), Except.ok.injEq] at e2
  constructor
  · rw [← e1, ← e2, div_lt_div_iff₀ hd1 hd2]
    nlinarith [mul_pos (mul_pos (mul_pos (sub_pos.mpr h12) hphi) hout) hin]
  · by_cases ha3 : a3 ≤ 0
    · rw [UniswapV2AMM.get_amount_out, if_pos ha3, Except.ok.injEq] at e3
      rw [← e3]
      exact hout
    · push_neg at ha3
      have hd3 : 0 < r_in + a3 * (1 - p.fee) := by positivity
      rw [get_amount_out_pos p a3 _ _ ha3 (ne_of_gt hd3), Except.ok.injEq] at e3
      rw [← e3, div_lt_iff₀ hd3]
      nlinarith [mul_pos hin hout]

/-- C6 witness: the monotonicity and bound instantiated on a fee-0 pool with
reserves (4, 8) at amounts 4 < 12 (outputs 4 < 6) and amount -1 (output 0 < 8). -/
theorem C6_witness :
    pC6.get_amount_out 4 4 8 = .ok 4 ∧ pC6.get_amount_out 12 4 8 = .ok 6 ∧
    pC6.get_amount_out (-1) 4 8 = .ok 0 ∧ ((4 : ℚ) < 6 ∧ (0 : ℚ) < 8) := by
  have e1 : pC6.get_amount_out 4 4 8 = .ok 4 := by
    norm_num [UniswapV2AMM.get_amount_out, qdiv, pC6, UniswapV2AMM.init]
  have e2 : pC6.get_amount_out 12 4 8 = .ok 6 := by
    norm_num [UniswapV2AMM.get_amount_out, qdiv, pC6, UniswapV2AMM.init]
  have e3 : pC6.get_amount_out (-1) 4 8 = .ok 0 := by
    norm_num [UniswapV2AMM.get_amount_out, qdiv, pC6, UniswapV2AMM.init]
  exact ⟨e1, e2, e3,
    C6_monotone_and_bounded pC6 4 8 4 12 (-1) 4 6 0 (by norm_num) (by norm_num)
      (by norm_num [pC6, UniswapV2AMM.init]) (by norm_num [pC6, UniswapV2AMM.init])
      (by norm_num) (by norm_num) e1 e2 e3⟩
lemma copy_copy (p : UniswapV2AMM) : p.copy.copy = p.copy := rfl

/-- C7: clone faithfulness and frame property: copy() produces a pool whose
reserves, fee and name equal the original's at clone time (only the stale k
attribute is recomputed), and the detector's trade-size objective
negative_profit and net-profit computation are invariant under replacing the
original pools by their clones -- every simulated trade inside them operates
on a fresh copy, so the authoritative pools passed to
find_two_pool_arbitrage are left unchanged (in this embedding pools are
immutable values and no original is ever rebound). -/
theorem C7_clone_frame :
    (∀ p : UniswapV2AMM, p.copy.reserve0 = p.reserve0 ∧ p.copy.reserve1 = p.reserve1 ∧
      p.copy.fee = p.fee ∧ p.copy.name = p.name) ∧
    (∀ (p q : UniswapV2AMM) (amount : ℚ),
      ArbitrageDetector.negative_profit (.uni p) (.uni q) amount =
        ArbitrageDetector.negative_profit (.uni p.copy) (.uni q.copy) amount) ∧
    (∀ (p q : UniswapV2AMM) (t0 t1 : String) (amount : ℚ),
      ArbitrageDetector.calculate_net_profit (.uni p) (.uni q) t0 t1 amount =
        ArbitrageDetector.calculate_net_profit (.uni p.copy) (.uni q.copy) t0 t1 amount) :=
  ⟨fun _ => ⟨rfl, rfl, rfl, rfl⟩, fun _ _ _ => rfl, fun _ _ _ _ _ => rfl⟩

/-- Pool A of the spec's detector example. -/
def poolA : UniswapV2AMM := UniswapV2AMM.init 100000 200000 (3 / 1000) "Pool A"

/-- Pool B of the spec's detector example. -/
def poolB : UniswapV2AMM := UniswapV2AMM.init 100000 210000 (3 / 1000) "Pool B"

/-- The detector of the spec's example, with min_profit_threshold = 0. -/
def detC1 : ArbitrageDetector := ⟨[.uni poolA, .uni poolB], 0⟩

lemma C1_roundtrip_lt (a b : ℚ) (ha : 0 < a)
    (hb : b = a * (1 - 3 / 1000) * 200000 / (100000 + a * (1 - 3 / 1000))) :
    b * (1 - 3 / 1000) * 100000 / (210000 + b * (1 - 3 / 1000)) < a := by
  have hphi : (0 : ℚ) < 1 - 3 / 1000 := by norm_num
  have hd1 : (0 : ℚ) < 100000 + a * (1 - 3 / 1000) := by positivity
  have hb0 : 0 < b := by
    rw [hb]
    exact div_pos (by positivity) hd1
  have hb_le : b ≤ 1994 / 1000 * a := by
    rw [hb, div_le_iff₀ hd1]
    nlinarith [sq_nonneg a]
  have hd2 : (0 : ℚ) < 210000 + b * (1 - 3 / 1000) := by positivity
  have hs_le : b * (1 - 3 / 1000) * 100000 / (210000 + b * (1 - 3 / 1000)) ≤ 997 / 2100 * b := by
    rw [div_le_iff₀ hd2]
    nlinarith [sq_nonneg b]
  have : (997 : ℚ) / 2100 * b ≤ 997 / 2100 * (1994 / 1000 * a) := by nlinarith
  nlinarith

lemma negprofit_AB (x : ℚ) :
    ArbitrageDetector.negative_profit (.uni poolA) (.uni poolB) x =
      if x ≤ 0 then .ok (-(0 - x))
      else .ok (-(x * (1 - 3 / 1000) * 200000 / (100000 + x * (1 - 3 / 1000)) * (1 - 3 / 1000) *
          100000 /
          (210000 + x * (1 - 3 / 1000) * 200000 / (100000 + x * (1 - 3 / 1000)) * (1 - 3 / 1000)) -
        x)) := by
  by_cases hx : x ≤ 0
  · simp [ArbitrageDetector.negative_profit, AMM.copy, AMM.reserve0, AMM.reserve1,
      AMM.get_amount_out, UniswapV2AMM.copy, UniswapV2AMM.init, poolA, poolB,
      UniswapV2AMM.get_amount_out, hx, qdiv]
  · push_neg at hx
    have hd1 : (0 : ℚ) < 100000 + x * (1 - 3 / 1000) := by positivity
    have hga : 0 < x * (1 - 3 / 1000) * 200000 / (100000 + x * (1 - 3 / 1000)) :=
      div_pos (by positivity) hd1
    have hd2 : (0 : ℚ) <
        210000 + x * (1 - 3 / 1000) * 200000 / (100000 + x * (1 - 3 / 1000)) * (1 - 3 / 1000) := by
      positivity
    simp [ArbitrageDetector.negative_profit, AMM.copy, AMM.reserve0, AMM.reserve1,
      AMM.get_amount_out, UniswapV2AMM.copy, UniswapV2AMM.init, poolA, poolB,
      UniswapV2AMM.get_amount_out, not_le.mpr hx, not_le.mpr hga, qdiv,
      ne_of_gt hd1, ne_of_gt hd2]

lemma evaluate_pair_AB (oracle : Oracle) (t0 t1 : String) (ts : ℤ) :
    ArbitrageDetector.evaluate_pair oracle 0 t0 t1 ts (.uni poolA, .uni poolB) = .ok [] := by
  have hpa : AMM.get_spot_price (.uni poolA) = .ok 2 := by
    norm_num [AMM.get_spot_price, UniswapV2AMM.get_spot_price, qdiv, poolA, UniswapV2AMM.init]
  have hpb : AMM.get_spot_price (.uni poolB) = .ok (21 / 10) := by
    norm_num [AMM.get_spot_price, UniswapV2AMM.get_spot_price, qdiv, poolB, UniswapV2AMM.init]
  rw [ArbitrageDetector.evaluate_pair]
  simp only [Prod.fst, Prod.snd]
  rw [hpa, hpb]
  simp only [ok_bind]
  have habs : |(2 : ℚ) - 21 / 10| = 1 / 10 := by
    rw [show (2 : ℚ) - 21 / 10 = -(1 / 10) from by norm_num, abs_neg,
      abs_of_pos (by norm_num : (0 : ℚ) < 1 / 10)]
  have hmin : min (2 : ℚ) (21 / 10) = 2 := by norm_num [min_def]
  have hratio : qdiv |(2 : ℚ) - 21 / 10| (min 2 (21 / 10)) = .ok (1 / 20) := by
    rw [habs, hmin]
    norm_num [qdiv]
  rw [hratio]
  simp only [ok_bind]
  rw [if_neg (by norm_num)]
  rw [if_pos (by norm_num : (2 : ℚ) < 21 / 10)]
  simp only [Prod.fst, Prod.snd]
  rw [ArbitrageDetector.optimize_trade_size]
  set x := oracle fun amount =>
    ArbitrageDetector.negative_profit (AMM.uni poolA) (AMM.uni poolB) amount with hxd
  have hbeta : (fun amount => ArbitrageDetector.negative_profit
      (AMM.uni poolA) (AMM.uni poolB) amount) x =
      ArbitrageDetector.negative_profit (AMM.uni poolA) (AMM.uni poolB) x := rfl
  rw [hbeta, negprofit_AB]
  rcases le_or_lt x 0 with hx | hx
  · rw [if_pos hx]
    simp only [ok_bind, zero_sub, neg_neg]
    rcases lt_or_eq_of_le hx with hlt | heq
    · rw [if_pos (by linarith : (0 : ℚ) < -x)]
      rw [if_neg (by linarith : ¬ (0 : ℚ) < x)]
    · rw [heq]
      norm_num [ok_bind]
  · rw [if_neg (not_le.mpr hx)]
    simp only [ok_bind, neg_neg]
    have hlt := C1_roundtrip_lt x _ hx rfl
    have hcond : ¬ (0 < x * (1 - 3 / 1000) * 200000 / (100000 + x * (1 - 3 / 1000)) *
        (1 - 3 / 1000) * 100000 /
        (210000 + x * (1 - 3 / 1000) * 200000 / (100000 + x * (1 - 3 / 1000)) * (1 - 3 / 1000)) -
        x) :=
      not_lt.mpr (by linarith)
    rw [if_neg hcond]
    rw [if_neg (by norm_num : ¬ (0 : ℚ) < 0)]

/-- C1 (code bug): for the spec's example pools (100000, 200000) and
(100000, 210000) with min_profit_threshold = 0, find_two_pool_arbitrage
returns no opportunity at all, whatever point the bounded minimizer evaluates:
the code buys token0-for-token1 in the cheaper pool and sells back in the
dearer pool, a round trip that loses for every positive trade size, so the
profit guard always fails. This contradicts the spec sentence and the
repository's own test, which expect at least one opportunity with positive
expected_profit. -/
theorem C1_scan_returns_no_opportunity (oracle : Oracle) (ts : ℤ) (t0 t1 : String) :
    detC1.find_two_pool_arbitrage oracle ts (t0, t1) = .ok [] := by
  rw [ArbitrageDetector.find_two_pool_arbitrage]
  simp only [detC1, AMM.has_pair, List.filter, upperPairs, List.map, List.append_nil,
    List.nil_append, exceptMap, evaluate_pair_AB, ok_bind, List.flatten]

/-- A concrete minimizer instantiation (its value is irrelevant to the claims
it is used for, since the error arises before optimization). -/
def stub_oracle : Oracle := fun _ => 1

/-- A pool in an invalid state: reserve0 = 0. -/
def poolZero : UniswapV2AMM := UniswapV2AMM.init 0 100 (3 / 1000) "Broken"

/-- A detector holding one healthy pool and one invalid pool. -/
def detC4 : ArbitrageDetector := ⟨[.uni poolA, .uni poolZero], 1 / 100⟩

/-- A pool with a negative reserve1 chosen so the trial amount 0.1 makes the
quote denominator exactly zero. -/
def poolNeg : UniswapV2AMM := UniswapV2AMM.init 100 (-997 / 10000) (3 / 1000) "Negative"

/-- A detector holding only the negative-reserve pool. -/
def detC4tri : ArbitrageDetector := ⟨[.uni poolNeg], 1 / 100⟩

/-- C4 counterexample: with one healthy pool and one zero-reserve pool, the
spot-price read of the invalid pool raises ZeroDivisionError and the whole
find_two_pool_arbitrage scan aborts with that error instead of skipping the
bad candidate and returning the remaining opportunities. -/
theorem C4_counterexample :
    detC4.find_two_pool_arbitrage stub_oracle 0 ("ETH", "USDC") = .error .zeroDivision := by
  norm_num [ArbitrageDetector.find_two_pool_arbitrage, detC4, AMM.has_pair, List.filter,
    upperPairs, exceptMap, ArbitrageDetector.evaluate_pair, AMM.get_spot_price,
    UniswapV2AMM.get_spot_price, qdiv, poolA, poolZero, UniswapV2AMM.init]

lemma swap_a_to_b_neg :
    UniswapV2AMM.swap poolNeg.copy ((10 : ℚ)⁻¹) "a_to_b" = .error .zeroDivision := by
  rw [UniswapV2AMM.swap, if_neg (by decide : ¬ ("a_to_b" : String) = "x_to_y")]
  have h : poolNeg.copy.get_amount_out ((10 : ℚ)⁻¹) poolNeg.copy.reserve1 poolNeg.copy.reserve0 =
      .error .zeroDivision := by
    norm_num [UniswapV2AMM.get_amount_out, qdiv, poolNeg, UniswapV2AMM.copy, UniswapV2AMM.init]
  rw [h]
  rfl

lemma poolNeg_trial :
    ArbitrageDetector.triangular_trial (.uni poolNeg) ((100 : ℚ)⁻¹) "A" "B" "C" ((10 : ℚ)⁻¹) =
      .error .zeroDivision := by
  simp [ArbitrageDetector.triangular_trial, AMM.copy, AMM.swap, swap_a_to_b_neg,
    Except.map_error, error_bind]

/-- C4 amended: the detector has no exception handling at all: a pool-level
error during a single candidate evaluation (here the zero quote denominator
produced by a negative reserve at trial amount 0.1) propagates out of
find_triangular_arbitrage and aborts the entire scan; no path records are
returned. -/
theorem C4_amended :
    detC4tri.find_triangular_arbitrage ("A", "B", "C") = .error .zeroDivision := by
  simp [ArbitrageDetector.find_triangular_arbitrage, detC4tri, AMM.has_pair,
    exceptMap, triangularTrials, poolNeg_trial]

/-- Whether an Except value is a normal return (Python: no exception raised). -/
def returnsNormally {α : Type} : Except PyErr α → Bool
  | .ok _ => true
  | .error _ => false

/-- A 2-token StableSwap pool on which the D Newton iteration exhausts all 255
iterations without the change between iterates ever dropping below 1: the
reserves are hugely imbalanced (10^60 and 10^-60) and A = 0, so each iterate
shrinks geometrically (factor about 2/3) from the seed S ≈ 10^60, and after
255 iterations the change is still astronomically larger than 1. -/
def badCurve : CurveAMM :=
  CurveAMM.init [(10 : ℚ) ^ 60, ((10 : ℚ) ^ 60)⁻¹] 0 (4 / 10000) "Curve"

lemma badCurve_Ann : badCurve.Ann = 0 := by
  norm_num [CurveAMM.Ann, badCurve, CurveAMM.init]

lemma badCurve_n : (badCurve.n : ℚ) = 2 := by
  norm_num [badCurve, CurveAMM.init]

lemma badCurve_DP (D : ℚ) : badCurve.D_P_loop D = .ok (D ^ 3 / 4) := by
  have h1 : (2 : ℚ) * (10 : ℚ) ^ 60 ≠ 0 := by positivity
  have h2 : (2 : ℚ) * ((10 : ℚ) ^ 60)⁻¹ ≠ 0 := by positivity
  simp [CurveAMM.D_P_loop, badCurve, CurveAMM.init, List.foldlM, qdiv, h1, h2]
  field_simp
  ring

lemma badCurve_step_lower (D : ℚ) (hD : 6 ≤ D) :
    2 / 3 * D ≤ D ^ 4 / 2 / (3 * D ^ 3 / 4 - D) := by
  have hD0 : (0 : ℚ) < D := by linarith
  have hD2 : (36 : ℚ) ≤ D ^ 2 := by nlinarith
  have hden : (0 : ℚ) < 3 * D ^ 3 / 4 - D := by
    nlinarith [mul_pos hD0 (show (0 : ℚ) < 3 * D ^ 2 / 4 - 1 by nlinarith)]
  rw [le_div_iff₀ hden]
  nlinarith [sq_nonneg D]

lemma badCurve_step_upper (D : ℚ) (hD : 6 ≤ D) :
    D ^ 4 / 2 / (3 * D ^ 3 / 4 - D) ≤ 7 / 10 * D := by
  have hD0 : (0 : ℚ) < D := by linarith
  have hD2 : (36 : ℚ) ≤ D ^ 2 := by nlinarith
  have hden : (0 : ℚ) < 3 * D ^ 3 / 4 - D := by
    nlinarith [mul_pos hD0 (show (0 : ℚ) < 3 * D ^ 2 / 4 - 1 by nlinarith)]
  rw [div_le_iff₀ hden]
  nlinarith [mul_nonneg (sq_nonneg D) (show (0 : ℚ) ≤ D ^ 2 - 28 by nlinarith)]

lemma badCurve_unfold (S0 : ℚ) (fuel : ℕ) (D : ℚ) (hD : 6 ≤ D) :
    badCurve.get_D_go S0 (fuel + 1) D =
      badCurve.get_D_go S0 fuel (D ^ 4 / 2 / (3 * D ^ 3 / 4 - D)) := by
  have hD0 : (0 : ℚ) < D := by linarith
  have hD2 : (36 : ℚ) ≤ D ^ 2 := by nlinarith
  have hden : (0 : ℚ) < 3 * D ^ 3 / 4 - D := by
    nlinarith [mul_pos hD0 (show (0 : ℚ) < 3 * D ^ 2 / 4 - 1 by nlinarith)]
  rw [get_D_go_succ, badCurve_DP]
  simp only [ok_bind, badCurve_Ann, badCurve_n]
  rw [show (0 * S0 + D ^ 3 / 4 * 2) * D = D ^ 4 / 2 from by ring,
    show ((0 : ℚ) - 1) * D + (2 + 1) * (D ^ 3 / 4) = 3 * D ^ 3 / 4 - D from by ring]
  rw [qdiv, if_neg (by exact fun hc => absurd hc (ne_of_gt hden))]
  simp only [ok_bind]
  have hup := badCurve_step_upper D hD
  have h1 : (1 : ℚ) ≤ D - D ^ 4 / 2 / (3 * D ^ 3 / 4 - D) := by nlinarith
  rw [if_neg (not_lt.mpr (le_trans h1 (by rw [abs_sub_comm]; exact le_abs_self _)))]

lemma badCurve_no_convergence (S0 : ℚ) : ∀ (fuel : ℕ) (D : ℚ), 6 * (3 / 2) ^ fuel ≤ D →
    ∃ Df, badCurve.get_D_go S0 fuel D = .ok (Df, false) := by
  intro fuel
  induction fuel with
  | zero => exact fun D _ => ⟨D, rfl⟩
  | succ n ih =>
    intro D hD
    have hpow : (1 : ℚ) ≤ (3 / 2) ^ (n + 1) := one_le_pow₀ (by norm_num)
    have hD6 : 6 ≤ D := by nlinarith
    rw [badCurve_unfold S0 n D hD6]
    apply ih
    have hlo := badCurve_step_lower D hD6
    rw [pow_succ] at hD
    linarith

lemma badCurve_sum : badCurve.reserves.sum = (10 : ℚ) ^ 60 + ((10 : ℚ) ^ 60)⁻¹ := by
  norm_num [badCurve, CurveAMM.init]

lemma badCurve_seed_large : 6 * (3 / 2 : ℚ) ^ 255 ≤ badCurve.reserves.sum := by
  rw [badCurve_sum]
  have h2 : (0 : ℚ) < 2 ^ 255 := by positivity
  have h1 : (6 : ℚ) * (3 / 2) ^ 255 ≤ 10 ^ 60 := by
    rw [div_pow, ← mul_div_assoc, div_le_iff₀ h2]
    norm_num
  have h3 : (0 : ℚ) ≤ ((10 : ℚ) ^ 60)⁻¹ := by positivity
  linarith

/-- C2 counterexample: a constructible StableSwap pool (reserves 10^60 and
10^-60, A = 0) on which the D Newton loop exhausts its full 255-iteration cap
with every step changing the iterate by far more than the tolerance 1, yet
get_D returns the last iterate normally: no NumericalConvergenceError (no
exception of any kind) is raised. -/
theorem C2_counterexample :
    badCurve.get_D_converged = Except.ok false ∧
    returnsNormally badCurve.get_D = true := by
  obtain ⟨Df, hrun⟩ :=
    badCurve_no_convergence badCurve.reserves.sum 255 badCurve.reserves.sum badCurve_seed_large
  have hr : badCurve.get_D_run = .ok (Df, false) := hrun
  constructor
  · rw [CurveAMM.get_D_converged, hr]
    rfl
  · rw [CurveAMM.get_D, hr]
    rfl

lemma curveBalanced_sum : curveBalanced.reserves.sum = 200 := by
  norm_num [curveBalanced, CurveAMM.init]

lemma curveBalanced_DP : curveBalanced.D_P_loop 200 = .ok 200 := by
  norm_num [CurveAMM.D_P_loop, curveBalanced, CurveAMM.init, List.foldlM, qdiv]

lemma curveBalanced_Ann : curveBalanced.Ann = 400 := by
  norm_num [CurveAMM.Ann, curveBalanced, CurveAMM.init]

lemma curveBalanced_n : (curveBalanced.n : ℚ) = 2 := by
  norm_num [curveBalanced, CurveAMM.init]

lemma curveBalanced_run : curveBalanced.get_D_run = .ok (200, true) := by
  rw [CurveAMM.get_D_run, curveBalanced_sum, show (255 : ℕ) = 254 + 1 from by norm_num,
    get_D_go_succ, curveBalanced_DP]
  simp only [ok_bind, curveBalanced_Ann, curveBalanced_n]
  rw [show ((400 : ℚ) * 200 + 200 * 2) * 200 = 16080000 from by norm_num,
    show ((400 : ℚ) - 1) * 200 + (2 + 1) * 200 = 80400 from by norm_num]
  rw [qdiv, if_neg (by norm_num : ¬ (80400 : ℚ) = 0)]
  simp only [ok_bind]
  rw [show (16080000 : ℚ) / 80400 = 200 from by norm_num]
  rw [if_pos (by norm_num : |(200 : ℚ) - 200| < 1)]

lemma curveBalanced_converged : curveBalanced.get_D_converged = Except.ok true := by
  rw [CurveAMM.get_D_converged, curveBalanced_run]
  rfl

lemma curveBalanced_D : curveBalanced.get_D = Except.ok 200 := by
  rw [CurveAMM.get_D, curveBalanced_run]
  rfl

/-- C2 amended: both Newton loops cap at 255 iterations and unconditionally
return the final iterate; when the tolerance is met the loop breaks early
(converged), and when the cap is exhausted without meeting tolerance the last
iterate is still returned as an ordinary value -- the code defines and raises
no NumericalConvergenceError. -/
theorem C2_amended :
    curveBalanced.get_D_converged = Except.ok true ∧
    curveBalanced.get_D = Except.ok 200 ∧
    badCurve.get_D_converged = Except.ok false ∧
    returnsNormally badCurve.get_D = true := by
  obtain ⟨Df, hrun⟩ :=
    badCurve_no_convergence badCurve.reserves.sum 255 badCurve.reserves.sum badCurve_seed_large
  have hr : badCurve.get_D_run = .ok (Df, false) := hrun
  refine ⟨curveBalanced_converged, curveBalanced_D, ?_, ?_⟩
  · rw [CurveAMM.get_D_converged, hr]
    rfl
  · rw [CurveAMM.get_D, hr]
    rfl

lemma exceptMap_mem {α β : Type} {f : α → Except PyErr β} :
    ∀ {l : List α} {ys : List β}, exceptMap f l = .ok ys →
      ∀ y, y ∈ ys ↔ ∃ a ∈ l, f a = .ok y := by
  intro l
  induction l with
  | nil =>
    intro ys h y
    rw [exceptMap] at h
    injection h with h
    subst h
    simp
  | cons x xs ih =>
    intro ys h y
    rw [exceptMap] at h
    cases hfx : f x with
    | error e => rw [hfx] at h; simp at h
    | ok y0 =>
      rw [hfx] at h
      simp only [ok_bind] at h
      cases hrest : exceptMap f xs with
      | error e => rw [hrest] at h; simp at h
      | ok ys0 =>
        rw [hrest] at h
        simp only [ok_bind] at h
        injection h with h
        subst h
        constructor
        · intro hy
          rcases List.mem_cons.mp hy with hy | hy
          · exact ⟨x, List.mem_cons_self x xs, hy ▸ hfx⟩
          · obtain ⟨a, ha, hfa⟩ := (ih hrest y).mp hy
            exact ⟨a, List.mem_cons_of_mem x ha, hfa⟩
        · rintro ⟨a, ha, hfa⟩
          rcases List.mem_cons.mp ha with rfl | ha
          · rw [hfa] at hfx
            injection hfx with hfx
            exact List.mem_cons.mpr (Or.inl hfx)
          · exact List.mem_cons.mpr (Or.inr ((ih hrest y).mpr ⟨a, ha, hfa⟩))

lemma exceptMap_ok_of_mem {α β : Type} {f : α → Except PyErr β} :
    ∀ {l : List α} {ys : List β}, exceptMap f l = .ok ys →
      ∀ a ∈ l, ∃ y, f a = .ok y := by
  intro l
  induction l with
  | nil => intro ys _ a ha; exact absurd ha (List.not_mem_nil a)
  | cons x xs ih =>
    intro ys h a ha
    rw [exceptMap] at h
    cases hfx : f x with
    | error e => rw [hfx] at h; simp at h
    | ok y0 =>
      rw [hfx] at h
      simp only [ok_bind] at h
      cases hrest : exceptMap f xs with
      | error e => rw [hrest] at h; simp at h
      | ok ys0 =>
        rcases List.mem_cons.mp ha with rfl | ha
        · exact ⟨y0, hfx⟩
        · exact ih hrest a ha

lemma per_amm_mem {amm : AMM} {θ : ℚ} {ta tb tc : String} {lb : List TriangularPath}
    (h : (if !(amm.has_pair ta tb && amm.has_pair tb tc && amm.has_pair tc ta) then
        (.ok [] : Except PyErr (List TriangularPath))
      else do
        let opts ← exceptMap (ArbitrageDetector.triangular_trial amm θ ta tb tc) triangularTrials
        .ok (opts.filterMap id)) = .ok lb) :
    ∀ r, r ∈ lb ↔ ∃ s ∈ triangularTrials,
      ArbitrageDetector.triangular_trial amm θ ta tb tc s = .ok (some r) := by
  rw [if_neg (by simp [AMM.has_pair])] at h
  cases hopts : exceptMap (ArbitrageDetector.triangular_trial amm θ ta tb tc) triangularTrials with
  | error e => rw [hopts] at h; simp at h
  | ok opts =>
    rw [hopts] at h
    simp only [ok_bind] at h
    injection h with h
    subst h
    intro r
    rw [List.mem_filterMap]
    constructor
    · rintro ⟨o, ho, hor⟩
      obtain ⟨s, hs, htr⟩ := (exceptMap_mem hopts o).mp ho
      exact ⟨s, hs, by rw [htr]; exact congrArg Except.ok hor⟩
    · rintro ⟨s, hs, htr⟩
      exact ⟨some r, (exceptMap_mem hopts (some r)).mpr ⟨s, hs, htr⟩, rfl⟩

lemma trial_fields {amm : AMM} {θ : ℚ} {ta tb tc : String} {s : ℚ} {r : TriangularPath}
    (h : ArbitrageDetector.triangular_trial amm θ ta tb tc s = .ok (some r)) :
    θ < r.profit_percentage ∧ r.profit = r.end_amount - r.start_amount ∧
    r.start_amount = s ∧ r.path = [ta, tb, tc, ta] := by
  rw [ArbitrageDetector.triangular_trial] at h
  cases hc : amm.copy with
  | error e => rw [hc] at h; simp at h
  | ok c =>
  rw [hc] at h
  simp only [ok_bind] at h
  cases h1 : c.swap s "a_to_b" with
  | error e => rw [h1] at h; simp at h
  | ok p1 =>
  obtain ⟨ab, c1⟩ := p1
  rw [h1] at h
  simp only [ok_bind] at h
  cases h2 : c1.swap ab "b_to_c" with
  | error e => rw [h2] at h; simp at h
  | ok p2 =>
  obtain ⟨ac, c2⟩ := p2
  rw [h2] at h
  simp only [ok_bind] at h
  cases h3 : c2.swap ac "c_to_a" with
  | error e => rw [h3] at h; simp at h
  | ok p3 =>
  obtain ⟨fa, c3⟩ := p3
  rw [h3] at h
  simp only [ok_bind] at h
  by_cases hs : s = 0
  · rw [qdiv, if_pos hs] at h
    simp at h
  · rw [qdiv, if_neg hs] at h
    simp only [ok_bind] at h
    by_cases hp : θ < (fa - s) / s * 100
    · rw [if_pos hp] at h
      injection h with h
      injection h with h
      subst h
      exact ⟨hp, by ring, rfl, rfl⟩
    · rw [if_neg hp] at h
      simp at h

/-- C9: for every detector, token triple and successful scan,
find_triangular_arbitrage emits exactly one path record per pool and trial
amount whose profit percentage beats the threshold: a record is in the result
iff some pool of the detector and some trial amount in {0.1, 1, 10, 100}
produce it via triangular_trial (clone the pool, run the three chained swaps
a_to_b, b_to_c, c_to_a, compute profit = final - start and
profit_percentage = profit/start*100, emit iff the percentage exceeds
min_profit_threshold); moreover every emitted record has
profit_percentage > min_profit_threshold, profit = end_amount - start_amount,
a start_amount among the four trials, and path [A, B, C, A]. -/
theorem C9_triangular_scan (d : ArbitrageDetector) (ta tb tc : String)
    (res : List TriangularPath)
    (h : d.find_triangular_arbitrage (ta, tb, tc) = .ok res) :
    (∀ r : TriangularPath, r ∈ res ↔ ∃ amm ∈ d.amms, ∃ s ∈ triangularTrials,
        ArbitrageDetector.triangular_trial amm d.min_profit_threshold ta tb tc s =
          .ok (some r)) ∧
    (∀ r ∈ res, d.min_profit_threshold < r.profit_percentage ∧
        r.profit = r.end_amount - r.start_amount ∧ r.start_amount ∈ triangularTrials ∧
        r.path = [ta, tb, tc, ta]) := by
  rw [ArbitrageDetector.find_triangular_arbitrage] at h
  simp only [Prod.fst, Prod.snd] at h
  cases hrss : exceptMap (fun amm =>
      if !(amm.has_pair ta tb && amm.has_pair tb tc && amm.has_pair tc ta) then
        (.ok [] : Except PyErr (List TriangularPath))
      else do
        let opts ← exceptMap
          (ArbitrageDetector.triangular_trial amm d.min_profit_threshold ta tb tc)
          triangularTrials
        .ok (opts.filterMap id)) d.amms with
  | error e => rw [hrss] at h; simp at h
  | ok rss =>
    rw [hrss] at h
    simp only [ok_bind] at h
    injection h with h
    subst h
    have hmem : ∀ r : TriangularPath, r ∈ rss.flatten ↔ ∃ amm ∈ d.amms,
        ∃ s ∈ triangularTrials,
        ArbitrageDetector.triangular_trial amm d.min_profit_threshold ta tb tc s =
          .ok (some r) := by
      intro r
      constructor
      · intro hr
        obtain ⟨lb, hlb, hrlb⟩ := List.mem_flatten.mp hr
        obtain ⟨amm, hamm, hgamm⟩ := (exceptMap_mem hrss lb).mp hlb
        exact ⟨amm, hamm, (per_amm_mem hgamm r).mp hrlb⟩
      · rintro ⟨amm, hamm, s, hs, htr⟩
        obtain ⟨lb, hglb⟩ := exceptMap_ok_of_mem hrss amm hamm
        exact List.mem_flatten.mpr ⟨lb, (exceptMap_mem hrss lb).mpr ⟨amm, hamm, hglb⟩,
          (per_amm_mem hglb r).mpr ⟨s, hs, htr⟩⟩
    refine ⟨hmem, fun r hr => ?_⟩
    obtain ⟨amm, _, s, hs, htr⟩ := (hmem r).mp hr
    obtain ⟨hθ, hprofit, hstart, hpath⟩ := trial_fields htr
    exact ⟨hθ, hprofit, hstart ▸ hs, hpath⟩

/-- A pool whose fee is 1, so every positive-amount quote returns 0. -/
def poolFee1 : UniswapV2AMM := UniswapV2AMM.init 100 200 1 "Fee One"

/-- A detector holding the fee-1 pool, with the default threshold 0.01. -/
def dW : ArbitrageDetector := ⟨[.uni poolFee1], 1 / 100⟩

lemma trialW (s : ℚ) (hs : 0 < s) :
    ArbitrageDetector.triangular_trial (.uni poolFee1) (1 / 100) "A" "B" "C" s = .ok none := by
  have hfee : (1 : ℚ) - poolFee1.copy.fee = 0 := by
    norm_num [poolFee1, UniswapV2AMM.copy, UniswapV2AMM.init]
  rw [ArbitrageDetector.triangular_trial]
  simp only [AMM.copy, ok_bind, AMM.swap, UniswapV2AMM.swap,
    if_neg (by decide : ¬ ("a_to_b" : String) = "x_to_y"),
    if_neg (by decide : ¬ ("b_to_c" : String) = "x_to_y"),
    if_neg (by decide : ¬ ("c_to_a" : String) = "x_to_y")]
  rw [UniswapV2AMM.get_amount_out, if_neg (not_le.mpr hs), hfee]
  have hden : poolFee1.copy.reserve1 + s * 0 ≠ 0 := by
    norm_num [poolFee1, UniswapV2AMM.copy, UniswapV2AMM.init]
  rw [qdiv, if_neg hden]
  simp only [mul_zero, zero_mul, zero_div, map_ok_eq, ok_bind]
  rw [UniswapV2AMM.get_amount_out, if_pos (le_refl (0 : ℚ))]
  simp only [map_ok_eq, ok_bind]
  rw [UniswapV2AMM.get_amount_out, if_pos (le_refl (0 : ℚ))]
  simp only [map_ok_eq, ok_bind]
  rw [qdiv, if_neg (ne_of_gt hs)]
  simp only [ok_bind]
  rw [if_neg ?hcond]
  case hcond =>
    rw [zero_sub, neg_div, div_self (ne_of_gt hs)]
    norm_num

lemma findTriW : dW.find_triangular_arbitrage ("A", "B", "C") = .ok [] := by
  rw [ArbitrageDetector.find_triangular_arbitrage]
  simp only [Prod.fst, Prod.snd, dW]
  simp only [exceptMap, triangularTrials]
  rw [if_neg (by simp [AMM.has_pair])]
  rw [trialW (1 / 10) (by norm_num), trialW 1 (by norm_num), trialW 10 (by norm_num),
    trialW 100 (by norm_num)]
  simp [List.filterMap]

/-- C9 witness: the characterization applied to a concrete detector whose four
trials all finish with negative profit percentage, so the scan returns the
empty list of path records. -/
theorem C9_witness :
    (∀ r : TriangularPath, r ∈ ([] : List TriangularPath) ↔ ∃ amm ∈ dW.amms,
        ∃ s ∈ triangularTrials, ArbitrageDetector.triangular_trial amm
          dW.min_profit_threshold "A" "B" "C" s = .ok (some r)) ∧
    (∀ r ∈ ([] : List TriangularPath), dW.min_profit_threshold < r.profit_percentage ∧
        r.profit = r.end_amount - r.start_amount ∧ r.start_amount ∈ triangularTrials ∧
        r.path = ["A", "B", "C", "A"]) :=
  C9_triangular_scan dW "A" "B" "C" [] findTriW
